import Mathlib

/-
Verification of the student-record exercise (lab6a.py and lab6a_advanced.py).

The Python data model is embedded shallowly:
* the `OrderedDict` of course → grade pairs becomes an association list
  (`Courses`) with an insertion operation `odInsert` that overwrites in place;
* grades (Python floats) become rationals, written with the core `Rat`
  operations so that every definition evaluates by kernel reduction;
* Python's `f"{x:.1f}"` / `f"{x:.2f}"` fixed-point formatting becomes
  `formatFixed`, using round-half-to-even as CPython does;
* the `lru_cache` on the advanced `displayGPA` becomes an explicit
  `cache : Option String` field consulted by the wrapper `displayGPAA` — but
  the wrapper first hashes `self`, and advanced instances are unhashable
  (`__eq__` is defined without `__hash__`), so every call raises `TypeError`;
  likewise the metaclass's `weakref.finalize` raises on every base-class
  construction because `__slots__` omits `__weakref__`;
* exceptions become `Except` results paired with the (unchanged) state.
-/

namespace Lab6

/-- Grades are modelled as rationals. -/
abbrev Grade := ℚ

/-- The `OrderedDict` of course code → grade, as an insertion-ordered
association list. -/
abbrev Courses := List (String × Grade)

/-- The key sequence of the ordered mapping, in insertion order. -/
def keys (cs : Courses) : List String := cs.map Prod.fst

/-- Lookup of `courses[c]`: the first (and, with unique keys, only) binding. -/
def lookupCourse : Courses → String → Option Grade
  | [], _ => none
  | (k, g) :: rest, c => if k = c then some g else lookupCourse rest c

/-- `OrderedDict.__setitem__`: overwrite the grade in place when the key is
present, append at the end otherwise. -/
def odInsert : Courses → String → Grade → Courses
  | [], c, g => [(c, g)]
  | (k, g') :: rest, c, g =>
      if k = c then (k, g) :: rest else (k, g') :: odInsert rest c g

/-- Rational addition, written on numerators and denominators via
`Rat.divInt` so that the kernel can evaluate it (the library's `Rat.add` is
irreducible); `ratAdd_eq` identifies it with `+`. -/
def ratAdd (a b : ℚ) : ℚ :=
  Rat.divInt (a.num * b.den + a.den * b.num) ((a.den : ℤ) * b.den)

/-- Rational multiplication via `mkRat`; `ratMul_eq` identifies it with `*`. -/
def ratMul (a b : ℚ) : ℚ :=
  mkRat (a.num * b.num) (a.den * b.den)

/-- Rational division via `Rat.divInt`; `ratDiv_eq` identifies it with `/`. -/
def ratDiv (a b : ℚ) : ℚ :=
  Rat.divInt (a.num * b.den) ((a.den : ℤ) * b.num)

/-- Python `sum(self.courses.values())` (left fold from 0). -/
def sumGrades (cs : Courses) : ℚ :=
  cs.foldl (fun acc p => ratAdd acc p.2) 0

/-- Python `sum(self.courses.values()) / len(self.courses)`. With non-empty
`cs` this is the arithmetic mean of all stored grades. -/
def meanGrades (cs : Courses) : ℚ :=
  ratDiv (sumGrades cs) (Rat.divInt (Int.ofNat cs.length) 1)

/-- Floor of a rational, computed directly on the numerator and denominator
so that the kernel can evaluate it. -/
def ratFloor (q : ℚ) : ℤ := q.num.fdiv (Int.ofNat q.den)

/-- Round to the nearest integer, ties to even — the rounding CPython's
fixed-point float formatting performs. -/
def roundHalfEven (q : ℚ) : ℤ :=
  let f := ratFloor q
  let twiceFrac := 2 * (q.num - f * Int.ofNat q.den)
  if twiceFrac < Int.ofNat q.den then f
  else if Int.ofNat q.den < twiceFrac then f + 1
  else if f % 2 = 0 then f else f + 1

/-- Left-pad a digit string with zeros to width `d`. -/
def padZeros (s : String) (d : ℕ) : String :=
  String.mk (List.replicate (d - s.length) '0') ++ s

/-- Python `f"{q:.df}"`: fixed-point formatting with `d` digits after the
point, rounding half to even. -/
def formatFixed (d : ℕ) (q : ℚ) : String :=
  let n := roundHalfEven (ratMul q (Rat.divInt (Int.ofNat (10 ^ d)) 1))
  let m := n.natAbs
  let sign := if Rat.blt q 0 then "-" else ""
  sign ++ Nat.repr (m / 10 ^ d) ++ "." ++ padZeros (Nat.repr (m % 10 ^ d)) d

/-- A student identifier as accepted by the constructors: `Union[int, str]`. -/
inductive IdVal where
  | int : ℤ → IdVal
  | str : String → IdVal

/-- Python `str(number)`: canonical text form of the identifier. -/
def idStr : IdVal → String
  | .int n => toString n
  | .str s => s

/-- The base-variant `Student` of lab6a.py. -/
structure Student where
  name : String
  number : String
  courses : Courses

/-- lab6a.py `Student.__init__`: store the name, coerce the number to text,
start with an empty ordered mapping. -/
def mkStudent (name : String) (number : IdVal) : Student :=
  ⟨name, idStr number, []⟩

/-- lab6a.py `Student.addGrade`: unvalidated `self.courses[course] = grade`. -/
def addGrade (s : Student) (course : String) (grade : Grade) : Student :=
  { s with courses := odInsert s.courses course grade }

/-- lab6a.py `Student.displayGPA`: guard the empty mapping, otherwise format
`sum/len` to one decimal place. -/
def displayGPA (s : Student) : String :=
  if s.courses.length = 0 then "GPA of student " ++ s.name ++ " is 0.0"
  else "GPA of student " ++ s.name ++ " is " ++ formatFixed 1 (meanGrades s.courses)

/-- The course codes with grade strictly above 0.0, in mapping order — the
list comprehension shared by both variants' `displayCourses`. -/
def passedCourses (cs : Courses) : List String :=
  (cs.filter (fun p => 0 < p.2)).map Prod.fst

/-- lab6a.py `Student.displayCourses`: passed courses in insertion order. -/
def displayCourses (s : Student) : List String :=
  passedCourses s.courses

/-- A dynamically typed argument to the advanced `addGrade`, as far as the
`isinstance` checks distinguish values: a string, an int, or a float. -/
inductive PyVal where
  | str : String → PyVal
  | int : ℤ → PyVal
  | float : ℚ → PyVal

/-- `isinstance(v, str)`. -/
def isStr : PyVal → Bool
  | .str _ => true
  | _ => false

/-- `isinstance(v, (int, float))`. -/
def isNum : PyVal → Bool
  | .int _ => true
  | .float _ => true
  | .str _ => false

/-- The numeric value of an int or float argument (0 on a string, a case the
code never reaches thanks to short-circuiting). -/
def pyRat : PyVal → ℚ
  | .int n => Rat.divInt n 1
  | .float q => q
  | .str _ => 0

/-- The text of a string argument ("" otherwise, never reached). -/
def pyStrVal : PyVal → String
  | .str s => s
  | _ => ""

/-- `len(course)` for a string argument (0 otherwise, never reached thanks to
short-circuiting). -/
def pyLen : PyVal → ℕ
  | .str s => s.length
  | _ => 0

/-- The two validation exceptions of lab6a_advanced.py. -/
inductive StudentError where
  | invalidCourse
  | invalidGrade
deriving DecidableEq

/-- The built-in exceptions the advanced variant actually raises at runtime:
`TypeError` (hashing an unhashable instance; weak-referencing a slotted
instance) and `ValueError` (negative scholarship amount). -/
inductive PyError where
  | typeError
  | valueError
deriving DecidableEq

/-- The advanced `Student` of lab6a_advanced.py. The `cache` field models the
single `lru_cache` entry of its `displayGPA` (keyed on `self` only); the
per-instance lock serializes mutation and has no observable effect in this
sequential model. -/
structure StudentA where
  name : String
  number : String
  courses : Courses
  cache : Option String

/-- lab6a_advanced.py `Student.__init__`: the `isinstance` checks admit
exactly a `str` name and a `Union[int, str]` number, which `IdVal` captures;
the number is stored as text. -/
def mkStudentA (name : String) (number : IdVal) : StudentA :=
  ⟨name, idStr number, [], none⟩

/-- `weakref.finalize(instance, ...)` as run by `StudentMeta.__call__`:
succeeds only when the instance supports weak references, raising
`TypeError` otherwise. -/
def weakrefFinalize (supportsWeakref : Bool) : Except PyError Unit :=
  if supportsWeakref then .ok () else .error .typeError

/-- `Student.__slots__` (line 54) lists only the four data slots and omits
`__weakref__`, so advanced `Student` instances do not support weak
references. -/
def studentSupportsWeakref : Bool := false

/-- `ScholarshipStudent` declares no `__slots__` of its own, so its
instances regain `__dict__` and `__weakref__`. -/
def scholarshipSupportsWeakref : Bool := true

/-- Constructing an advanced `Student` as `StudentMeta.__call__` runs it:
`__init__` succeeds (building the record `mkStudentA` describes), but the
metaclass then calls `weakref.finalize` on the slotted instance, which
raises `TypeError` — so base-class construction never returns. -/
def constructStudentA (name : String) (number : IdVal) : Except PyError StudentA :=
  let inst := mkStudentA name number
  match weakrefFinalize studentSupportsWeakref with
  | .error e => .error e
  | .ok _ => .ok inst

/-- lab6a_advanced.py `Student.addGrade`: validate the course (a string of at
least 3 characters) then the grade (an int or float within [0.0, 4.0]);
raising leaves the record untouched, success overwrites-or-appends. -/
def addGradeA (s : StudentA) (course grade : PyVal) :
    Except StudentError Unit × StudentA :=
  if isStr course = false ∨ pyLen course < 3 then (.error .invalidCourse, s)
  else if isNum grade = false ∨ pyRat grade < 0 ∨ 4 < pyRat grade then
    (.error .invalidGrade, s)
  else (.ok (), { s with courses := odInsert s.courses (pyStrVal course) (pyRat grade) })

/-- The body of lab6a_advanced.py `Student.displayGPA` (what a cache miss
computes): empty guard, otherwise `sum/len` formatted to two decimals. -/
def displayGPAValue (s : StudentA) : String :=
  if s.courses = [] then "GPA of student " ++ s.name ++ " is 0.0"
  else "GPA of student " ++ s.name ++ " is " ++ formatFixed 2 (meanGrades s.courses)

/-- Python `hash(instance)` for advanced students: defining `__eq__`
(line 117) without `__hash__` sets `__hash__ = None`, so instances of
`Student` — and of `ScholarshipStudent`, which inherits both — are
unhashable, and hashing raises `TypeError`. -/
def hashStudentA : StudentA → Except PyError Unit :=
  fun _ => .error .typeError

/-- The `lru_cache`-decorated `displayGPA` as the wrapper runs it: it first
hashes `self` to form the cache key, and only then would it return the
cached string or compute, remember and return the body's result (nothing
ever invalidates the cache — in particular `addGradeA` does not). Since
hashing always raises, no call ever reaches the cache or the body. -/
def displayGPAA (s : StudentA) : Except PyError (String × StudentA) :=
  match hashStudentA s with
  | .error e => .error e
  | .ok _ =>
      match s.cache with
      | some r => .ok (r, s)
      | none => .ok (displayGPAValue s, { s with cache := some (displayGPAValue s) })

/-- `self._courses[x]` for a key known to be present (the sort key below only
evaluates it on members of the mapping). -/
def gradeIn (cs : Courses) (c : String) : ℚ :=
  (lookupCourse cs c).getD 0

/-- lab6a_advanced.py `Student.displayCourses`:
`sorted([...], key=lambda x: -self._courses[x])` — the passed courses, stably
sorted ascending by negated grade, i.e. descending by grade. -/
def displayCoursesA (s : StudentA) : List String :=
  (passedCourses s.courses).mergeSort
    (fun a b => decide (gradeIn s.courses b ≤ gradeIn s.courses a))

/-- lab6a_advanced.py `Student.__contains__`: `course in self._courses`. -/
def containsCourse (s : StudentA) (course : String) : Bool :=
  (lookupCourse s.courses course).isSome

/-- lab6a_advanced.py `Student.__eq__`: name and stored (textual) number. -/
def studentEqA (s t : StudentA) : Bool :=
  s.name == t.name && s.number == t.number

/-- lab6a_advanced.py `ScholarshipStudent`: a student plus an amount. -/
structure ScholarshipStudent where
  toStudentA : StudentA
  scholarship_amount : ℚ

/-- Constructing a `ScholarshipStudent` as the metaclass runs it: `__init__`
(the inherited one plus the amount check) raises `ValueError` on a negative
amount; otherwise `weakref.finalize` succeeds — the subclass supports weak
references — and the instance is returned. -/
def mkScholarshipStudent (name : String) (number : IdVal) (amount : ℚ) :
    Except PyError ScholarshipStudent :=
  if amount < 0 then .error .valueError
  else
    match weakrefFinalize scholarshipSupportsWeakref with
    | .error e => .error e
    | .ok _ => .ok ⟨mkStudentA name number, amount⟩

/-- Split a character list at every occurrence of `sep` (Python
`str.split(sep)`; structural, so the kernel can evaluate it). -/
def splitOnChar (sep : Char) : List Char → List (List Char)
  | [] => [[]]
  | c :: rest =>
      match splitOnChar sep rest with
      | [] => [[]]
      | grp :: grps => if c = sep then [] :: grp :: grps else (c :: grp) :: grps

/-- Python `s.split()[-1]` for the GPA strings at hand: the text after the
last space (the strings never end in a space, so the last whitespace-split
field and the last space-split field agree). -/
def lastToken (s : String) : String :=
  String.mk (((splitOnChar ' ' s.data).getLast?).getD [])

/-- The numeric value of a string of decimal digits. -/
def digitsToNat (l : List Char) : ℕ :=
  l.foldl (fun acc c => 10 * acc + (c.toNat - '0'.toNat)) 0

/-- Python `float(s)` on the non-negative fixed-point literals produced by
`displayGPA`: an integer part, and after a point an integer part scaled down
by its width. -/
def parseDecimal (s : String) : ℚ :=
  match splitOnChar '.' s.data with
  | [a, b] => ratAdd (Rat.divInt (Int.ofNat (digitsToNat a)) 1)
      (Rat.divInt (Int.ofNat (digitsToNat b)) (Int.ofNat (10 ^ b.length)))
  | _ => Rat.divInt (Int.ofNat (digitsToNat s.data)) 1

/-- lab6a_advanced.py `ScholarshipStudent.isEligible` as the interpreter
runs it: evaluate `self.displayGPA()` — the decorated method, which raises —
then parse its last token and compare with 3.5. The comparison is never
reached, so no call ever returns a boolean. -/
def isEligibleA (s : ScholarshipStudent) : Except PyError Bool :=
  match displayGPAA s.toStudentA with
  | .error e => .error e
  | .ok r => .ok (decide (Rat.divInt 7 2 < parseDecimal (lastToken r.1)))

/-- The comparison `isEligible`'s body performs, applied to the string the
`displayGPA` body computes — the behavior the method is written to have once
its GPA call works: `float(gpaString.split()[-1]) > 3.5`. -/
def isEligibleBody (s : ScholarshipStudent) : Bool :=
  decide (Rat.divInt 7 2 < parseDecimal (lastToken (displayGPAValue s.toStudentA)))

/-- A sequence of base-variant `addGrade` calls applied to an empty mapping. -/
def applyCalls (l : List (String × Grade)) : Courses :=
  l.foldl (fun cs p => odInsert cs p.1 p.2) []

/-- A sequence of advanced `addGrade` calls (rejected ones leave the record
as it was). -/
def runCallsA (l : List (PyVal × PyVal)) (s : StudentA) : StudentA :=
  l.foldl (fun s p => (addGradeA s p.1 p.2).2) s

/-- The kernel-evaluable addition agrees with the field addition of ℚ. -/
theorem ratAdd_eq (a b : ℚ) : ratAdd a b = a + b :=
  (Rat.add_num_den a b).symm

/-- The kernel-evaluable multiplication agrees with the field one. -/
theorem ratMul_eq (a b : ℚ) : ratMul a b = a * b :=
  (Rat.mul_eq_mkRat a b).symm

/-- The kernel-evaluable division agrees with the field one. -/
theorem ratDiv_eq (a b : ℚ) : ratDiv a b = a / b :=
  (Rat.div_def' a b).symm

/-- `sumGrades` really is the sum of the stored grades. -/
theorem sumGrades_eq (cs : Courses) : sumGrades cs = (cs.map Prod.snd).sum := by
  suffices h : ∀ (l : Courses) (a : ℚ),
      l.foldl (fun acc p => ratAdd acc p.2) a = a + (l.map Prod.snd).sum by
    simpa using h cs 0
  intro l
  induction l with
  | nil => simp
  | cons p rest ih =>
      intro a
      rw [List.foldl_cons, ih, ratAdd_eq]
      simp [add_assoc]

/-- `meanGrades` really is the arithmetic mean (sum over count) of the
stored grades. -/
theorem meanGrades_eq (cs : Courses) :
    meanGrades cs = (cs.map Prod.snd).sum / (cs.length : ℚ) := by
  rw [meanGrades, ratDiv_eq, sumGrades_eq]
  rw [show Rat.divInt (Int.ofNat cs.length) 1 = ((cs.length : ℤ) : ℚ) from
    (Rat.intCast_eq_divInt _).symm]
  norm_cast

theorem keys_nil : keys [] = [] := rfl

theorem keys_cons (k : String) (g : Grade) (rest : Courses) :
    keys ((k, g) :: rest) = k :: keys rest := rfl

/-- Lookup succeeds exactly on the keys of the mapping. -/
theorem lookupCourse_isSome_iff (cs : Courses) (c : String) :
    (lookupCourse cs c).isSome = true ↔ c ∈ keys cs := by
  induction cs with
  | nil => simp [lookupCourse, keys]
  | cons p rest ih =>
      obtain ⟨k, g⟩ := p
      by_cases h : k = c <;> simp [lookupCourse, keys_cons, h, ih]
      exact fun hc => (h hc.symm).elim

/-- Inserting overwrites: looking up the inserted key yields the new grade. -/
theorem lookupCourse_odInsert_self (cs : Courses) (c : String) (g : Grade) :
    lookupCourse (odInsert cs c g) c = some g := by
  induction cs with
  | nil => simp [odInsert, lookupCourse]
  | cons p rest ih =>
      obtain ⟨k, g'⟩ := p
      by_cases h : k = c <;> simp [odInsert, lookupCourse, h, ih]

/-- Inserting a present key leaves the key sequence unchanged; a fresh key
goes to the end. -/
theorem keys_odInsert (cs : Courses) (c : String) (g : Grade) :
    keys (odInsert cs c g) = if c ∈ keys cs then keys cs else keys cs ++ [c] := by
  induction cs with
  | nil => simp [odInsert, keys]
  | cons p rest ih =>
      obtain ⟨k, g'⟩ := p
      by_cases h : k = c
      · subst h
        simp [odInsert, keys_cons]
      · have h' : ¬c = k := fun hc => h hc.symm
        by_cases hm : c ∈ keys rest <;>
          simp [odInsert, keys_cons, h, h', hm, ih]

/-- Membership in the keys after an insertion. -/
theorem mem_keys_odInsert (cs : Courses) (c d : String) (g : Grade) :
    d ∈ keys (odInsert cs c g) ↔ d = c ∨ d ∈ keys cs := by
  rw [keys_odInsert]
  by_cases hm : c ∈ keys cs
  · simp only [hm, if_true]
    constructor
    · exact Or.inr
    · rintro (rfl | hd)
      · exact hm
      · exact hd
  · simp [hm, List.mem_append, or_comm]

/-- Insertion preserves key uniqueness. -/
theorem nodup_keys_odInsert (cs : Courses) (c : String) (g : Grade)
    (h : (keys cs).Nodup) : (keys (odInsert cs c g)).Nodup := by
  rw [keys_odInsert]
  by_cases hm : c ∈ keys cs
  · simpa [hm] using h
  · simpa [hm] using List.Nodup.append h (List.nodup_singleton c)
      (by simpa [List.disjoint_singleton] using hm)

/-- Membership in the passed-course listing, described at the entry level. -/
theorem mem_passedCourses (cs : Courses) (c : String) :
    c ∈ passedCourses cs ↔ ∃ g, (c, g) ∈ cs ∧ 0 < g := by
  simp only [passedCourses, List.mem_map, List.mem_filter]
  constructor
  · rintro ⟨⟨a, b⟩, ⟨hmem, hpos⟩, rfl⟩
    exact ⟨b, hmem, by simpa using hpos⟩
  · rintro ⟨g, hmem, hpos⟩
    exact ⟨(c, g), ⟨hmem, by simpa using hpos⟩, rfl⟩

/-- The passed-course listing is a subsequence of the insertion-ordered key
sequence. -/
theorem passedCourses_sublist (cs : Courses) :
    (passedCourses cs).Sublist (keys cs) :=
  (List.filter_sublist cs).map Prod.fst

/-- With unique keys, an entry of the list is the lookup result. -/
theorem lookupCourse_eq_of_mem (cs : Courses) (c : String) (g : Grade)
    (hnd : (keys cs).Nodup) (hmem : (c, g) ∈ cs) :
    lookupCourse cs c = some g := by
  induction cs with
  | nil => cases hmem
  | cons p rest ih =>
      obtain ⟨k, g'⟩ := p
      rw [keys_cons, List.nodup_cons] at hnd
      rcases List.mem_cons.mp hmem with heq | htail
      · obtain ⟨rfl, rfl⟩ := Prod.mk.injEq .. ▸ heq
        simp [lookupCourse]
      · by_cases h : k = c
        · subst h
          exact absurd ((List.mem_map_of_mem Prod.fst htail : k ∈ keys rest)) hnd.1
        · simpa [lookupCourse, h] using ih hnd.2 htail

/-- A course stored with grade 0 never appears among the passed courses. -/
theorem not_mem_passedCourses_of_zero (cs : Courses) (c : String)
    (hnd : (keys cs).Nodup) (h0 : lookupCourse cs c = some 0) :
    c ∉ passedCourses cs := by
  intro hmem
  obtain ⟨g, hg, hpos⟩ := (mem_passedCourses cs c).mp hmem
  have := lookupCourse_eq_of_mem cs c g hnd hg
  rw [h0] at this
  have hg0 : (0 : ℚ) = g := Option.some.inj this
  exact absurd hg0.symm hpos.ne'

/-- One advanced `addGrade` call preserves key uniqueness (it either leaves
the record alone or performs one insertion). -/
theorem nodup_keys_addGradeA (s : StudentA) (course grade : PyVal)
    (h : (keys s.courses).Nodup) :
    (keys (addGradeA s course grade).2.courses).Nodup := by
  rw [addGradeA]
  split
  · exact h
  · split
    · exact h
    · exact nodup_keys_odInsert _ _ _ h

/-- Any base-variant call sequence keeps keys unique. -/
theorem nodup_keys_applyCalls (l : List (String × Grade)) :
    (keys (applyCalls l)).Nodup := by
  suffices h : ∀ (l : List (String × Grade)) (cs : Courses),
      (keys cs).Nodup → (keys (l.foldl (fun cs p => odInsert cs p.1 p.2) cs)).Nodup by
    exact h l [] (by simp [keys])
  intro l
  induction l with
  | nil => intro cs h; simpa using h
  | cons p rest ih =>
      intro cs h
      exact ih _ (nodup_keys_odInsert _ _ _ h)

/-- Any advanced call sequence keeps keys unique. -/
theorem nodup_keys_runCallsA (l : List (PyVal × PyVal)) (name : String)
    (number : IdVal) :
    (keys (runCallsA l (mkStudentA name number)).courses).Nodup := by
  suffices h : ∀ (l : List (PyVal × PyVal)) (s : StudentA),
      (keys s.courses).Nodup →
      (keys (runCallsA l s).courses).Nodup by
    exact h l _ (by simp [mkStudentA, keys])
  intro l
  induction l with
  | nil => intro s h; simpa [runCallsA] using h
  | cons p rest ih =>
      intro s h
      exact ih _ (nodup_keys_addGradeA _ _ _ h)

/-- C1: the base variant's `displayGPA` does report the arithmetic mean of
all stored grades (passed and failed alike — `meanGrades` is the plain sum
over count, nothing filtered) to 1 decimal place, with exactly "0.0" for an
empty mapping, and the body of the advanced `displayGPA` computes the
2-decimal analogue; but the advanced method itself never returns a string:
its `lru_cache` wrapper hashes the unhashable instance, so every call — on
every record, whatever its courses or cache — raises `TypeError`, refuting
the advanced half of the claim (the repo's own demo prints this method's
result, so the formatted-mean reading is the intent and the code the slip). -/
theorem displayGPA_reports_formatted_mean (s : Student) (t : StudentA) :
    (s.courses ≠ [] →
      displayGPA s =
        "GPA of student " ++ s.name ++ " is " ++ formatFixed 1 (meanGrades s.courses))
    ∧ (s.courses = [] → displayGPA s = "GPA of student " ++ s.name ++ " is 0.0")
    ∧ meanGrades s.courses = (s.courses.map Prod.snd).sum / (s.courses.length : ℚ)
    ∧ displayGPAA t = .error .typeError
    ∧ (t.courses ≠ [] →
      displayGPAValue t =
        "GPA of student " ++ t.name ++ " is " ++ formatFixed 2 (meanGrades t.courses))
    ∧ (t.courses = [] → displayGPAValue t = "GPA of student " ++ t.name ++ " is 0.0")
    ∧ meanGrades t.courses = (t.courses.map Prod.snd).sum / (t.courses.length : ℚ) := by
  refine ⟨fun h => ?_, fun h => ?_, meanGrades_eq _, rfl, fun h => ?_, fun h => ?_,
    meanGrades_eq _⟩
  · rw [displayGPA, if_neg (by simpa [List.length_eq_zero] using h)]
  · rw [displayGPA, if_pos (by simp [h])]
  · rw [displayGPAValue, if_neg h]
  · rw [displayGPAValue, if_pos h]

/-- Witness for C1 at the spec's own scenarios: John with grades 3.0, 2.0,
1.0 gets "2.0" under the base 1-decimal policy, while the advanced call on a
fresh record raises even though its body would report exactly "0.0". -/
theorem displayGPA_reports_formatted_mean_witness :
    ([("ops445", (3 : ℚ)), ("ops245", 2), ("uli101", 1)] ≠ ([] : Courses))
    ∧ displayGPA ⟨"John", "013454900", [("ops445", 3), ("ops245", 2), ("uli101", 1)]⟩ =
        "GPA of student John is 2.0"
    ∧ displayGPAA ⟨"Jess", "123456", [], none⟩ = .error .typeError
    ∧ displayGPAValue ⟨"Jess", "123456", [], none⟩ = "GPA of student Jess is 0.0" :=
  ⟨by decide,
   ((displayGPA_reports_formatted_mean
      ⟨"John", "013454900", [("ops445", 3), ("ops245", 2), ("uli101", 1)]⟩
      ⟨"Jess", "123456", [], none⟩).1 (by decide)).trans (by decide),
   (displayGPA_reports_formatted_mean
      ⟨"John", "013454900", [("ops445", 3), ("ops245", 2), ("uli101", 1)]⟩
      ⟨"Jess", "123456", [], none⟩).2.2.2.1,
   (displayGPA_reports_formatted_mean
      ⟨"John", "013454900", [("ops445", 3), ("ops245", 2), ("uli101", 1)]⟩
      ⟨"Jess", "123456", [], none⟩).2.2.2.2.2.1 rfl⟩

/-- C2: in the validating variant, `addGrade` fails with the invalid-course
error when the course text has fewer than 3 characters, and — when the
course is acceptable — fails with the invalid-grade error when the (numeric)
grade lies outside [0.0, 4.0]; in both rejected calls the record, courses
mapping included, is returned exactly as it was. -/
theorem addGradeA_rejects_invalid (s : StudentA) (c : String) (g : PyVal) :
    (c.length < 3 → addGradeA s (.str c) g = (.error .invalidCourse, s))
    ∧ (3 ≤ c.length → isNum g = true → ¬(0 ≤ pyRat g ∧ pyRat g ≤ 4) →
        addGradeA s (.str c) g = (.error .invalidGrade, s)) := by
  constructor
  · intro h
    rw [addGradeA, if_pos (Or.inr (show pyLen (PyVal.str c) < 3 from h))]
  · intro hlen hnum hrange
    rw [addGradeA,
      if_neg (by simp [isStr, pyLen, Nat.not_lt.mpr hlen]),
      if_pos ?_]
    rcases Decidable.not_and_iff_or_not.mp hrange with h | h
    · exact Or.inr (Or.inl (lt_of_not_le h))
    · exact Or.inr (Or.inr (lt_of_not_le h))

/-- Witness for C2: "ab" (2 characters) is rejected as an invalid course and
grade 5.0 as an invalid grade, the record coming back unchanged. -/
theorem addGradeA_rejects_invalid_witness :
    ("ab".length < 3)
    ∧ addGradeA (mkStudentA "John" (.str "1")) (.str "ab") (.float 2) =
        (.error .invalidCourse, mkStudentA "John" (.str "1"))
    ∧ addGradeA (mkStudentA "John" (.str "1")) (.str "abc") (.float 5) =
        (.error .invalidGrade, mkStudentA "John" (.str "1")) :=
  ⟨by decide,
   (addGradeA_rejects_invalid (mkStudentA "John" (.str "1")) "ab" (.float 2)).1
     (by decide),
   (addGradeA_rejects_invalid (mkStudentA "John" (.str "1")) "abc" (.float 5)).2
     (by decide) (by decide) (by decide)⟩

/-- C3: the claim (repeated calls agree, and a call after a mutation reports
the updated mapping) is what the spec demands, but the advanced variant
cannot satisfy it in any execution: the run the claim envisages dies at its
first statement, since constructing an advanced `Student` raises `TypeError`
(`weakref.finalize` on a slotted instance without `__weakref__`); and on any
advanced record — such as a constructible `ScholarshipStudent` — every
`displayGPA` call raises `TypeError` (the `lru_cache` wrapper hashes the
unhashable instance), so no call after a mutation ever returns the updated
GPA, or any string at all. The mutation itself also leaves a primed cache
entry untouched: the invalidation the claim requires is nowhere in the code
(the stale-cache hazard the spec documents). The concrete run below adds
ops245 = 1.0 to a Jessica record whose cache holds the old "3.00" string:
the entry survives and the follow-up call still raises. -/
theorem displayGPA_mutation_never_observed :
    constructStudentA "John" (.str "013454900") = .error .typeError
    ∧ (addGradeA
        ⟨"Jessica", "123456", [("ops445", 3)], some "GPA of student Jessica is 3.00"⟩
        (.str "ops245") (.float 1)).2.cache = some "GPA of student Jessica is 3.00"
    ∧ displayGPAA
        (addGradeA
          ⟨"Jessica", "123456", [("ops445", 3)], some "GPA of student Jessica is 3.00"⟩
          (.str "ops245") (.float 1)).2 = .error .typeError
    ∧ displayGPAValue
        (addGradeA
          ⟨"Jessica", "123456", [("ops445", 3)], some "GPA of student Jessica is 3.00"⟩
          (.str "ops245") (.float 1)).2 = "GPA of student Jessica is 2.00" := by
  refine ⟨rfl, by decide, rfl, by decide⟩

/-- C4: a course stored with grade 0.0 is never listed by `displayCourses`,
in the base variant and in the advanced variant alike. -/
theorem failed_course_never_displayed (s : Student) (t : StudentA) (c d : String)
    (hs : (keys s.courses).Nodup) (hs0 : lookupCourse s.courses c = some 0)
    (ht : (keys t.courses).Nodup) (ht0 : lookupCourse t.courses d = some 0) :
    c ∉ displayCourses s ∧ d ∉ displayCoursesA t := by
  constructor
  · exact not_mem_passedCourses_of_zero s.courses c hs hs0
  · intro hmem
    exact not_mem_passedCourses_of_zero t.courses d ht ht0
      (List.mem_mergeSort.mp hmem)

/-- Witness for C4: cpp344 with grade 0.0 is absent from both listings. -/
theorem failed_course_never_displayed_witness :
    (keys [("cpp344", (0 : ℚ)), ("ipc144", 4)]).Nodup
    ∧ lookupCourse [("cpp344", (0 : ℚ)), ("ipc144", 4)] "cpp344" = some 0
    ∧ "cpp344" ∉ displayCourses ⟨"Jess", "123456", [("cpp344", 0), ("ipc144", 4)]⟩
    ∧ "cpp344" ∉ displayCoursesA ⟨"Jess", "123456", [("cpp344", 0), ("ipc144", 4)], none⟩ := by
  refine ⟨by decide, by decide, ?_, ?_⟩
  · exact (failed_course_never_displayed
      ⟨"Jess", "123456", [("cpp344", 0), ("ipc144", 4)]⟩
      ⟨"Jess", "123456", [("cpp344", 0), ("ipc144", 4)], none⟩
      "cpp344" "cpp344" (by decide) (by decide) (by decide) (by decide)).1
  · exact (failed_course_never_displayed
      ⟨"Jess", "123456", [("cpp344", 0), ("ipc144", 4)]⟩
      ⟨"Jess", "123456", [("cpp344", 0), ("ipc144", 4)], none⟩
      "cpp344" "cpp344" (by decide) (by decide) (by decide) (by decide)).2

/-- C5: the base variant lists the passed courses in insertion order (its
listing is a subsequence of the insertion-ordered key sequence and holds
exactly the courses with positive grade), while the advanced variant lists
the same passed courses sorted by descending grade. -/
theorem displayCourses_ordering (s : Student) (t : StudentA) :
    (displayCourses s).Sublist (keys s.courses)
    ∧ (∀ c, c ∈ displayCourses s ↔ ∃ g, (c, g) ∈ s.courses ∧ 0 < g)
    ∧ (displayCoursesA t).Perm (passedCourses t.courses)
    ∧ List.Sorted (fun a b => gradeIn t.courses b ≤ gradeIn t.courses a)
        (displayCoursesA t) := by
  refine ⟨passedCourses_sublist s.courses, fun c => mem_passedCourses s.courses c,
    List.mergeSort_perm _ _, ?_⟩
  have h := @List.sorted_mergeSort String
    (fun a b => decide (gradeIn t.courses b ≤ gradeIn t.courses a))
    (fun a b c hab hbc => by
      simp only [decide_eq_true_eq] at *
      exact le_trans hbc hab)
    (fun a b => by
      simp only [Bool.or_eq_true, decide_eq_true_eq]
      exact le_total (gradeIn t.courses b) (gradeIn t.courses a))
    (passedCourses t.courses)
  exact h.imp (fun hab => of_decide_eq_true hab)

/-- C6: re-adding a present course overwrites its grade but leaves the whole
insertion-order key sequence — hence the course's position — unchanged, and
after any sequence of `addGrade` calls (base or advanced, starting from a
fresh record) the mapping's keys contain no duplicates. -/
theorem addGrade_overwrites_in_place (s : Student) (c : String) (g : Grade) :
    (c ∈ keys s.courses → keys (addGrade s c g).courses = keys s.courses)
    ∧ lookupCourse (addGrade s c g).courses c = some g
    ∧ (∀ l : List (String × Grade), (keys (applyCalls l)).Nodup)
    ∧ (∀ (l : List (PyVal × PyVal)) (n : String) (i : IdVal),
        (keys (runCallsA l (mkStudentA n i)).courses).Nodup) := by
  refine ⟨fun h => ?_, lookupCourse_odInsert_self s.courses c g,
    nodup_keys_applyCalls, nodup_keys_runCallsA⟩
  rw [addGrade]
  simp [keys_odInsert, h]

/-- Witness for C6: overwriting the grade of abc keeps the key sequence
[abc, def] and stores the new grade. -/
theorem addGrade_overwrites_in_place_witness :
    ("abc" ∈ keys [("abc", (1 : ℚ)), ("def", 2)])
    ∧ keys (addGrade ⟨"A", "1", [("abc", 1), ("def", 2)]⟩ "abc" 3).courses =
        keys [("abc", (1 : ℚ)), ("def", 2)]
    ∧ lookupCourse (addGrade ⟨"A", "1", [("abc", 1), ("def", 2)]⟩ "abc" 3).courses
        "abc" = some 3 :=
  ⟨by decide,
   (addGrade_overwrites_in_place ⟨"A", "1", [("abc", 1), ("def", 2)]⟩ "abc" 3).1
     (by decide),
   (addGrade_overwrites_in_place ⟨"A", "1", [("abc", 1), ("def", 2)]⟩ "abc" 3).2.1⟩

/-- C7: two advanced records are equal exactly when their names and their
stored (textual) identifiers agree; since the constructor coerces the
identifier to text, a record built with the integer k equals one built with
the string form of k. -/
theorem studentEqA_iff_name_number (s t : StudentA) (n : String) (k : ℤ) :
    (studentEqA s t = true ↔ s.name = t.name ∧ s.number = t.number)
    ∧ studentEqA (mkStudentA n (.int k)) (mkStudentA n (.str (toString k))) = true := by
  constructor
  · simp [studentEqA]
  · simp [studentEqA, mkStudentA, idStr]

/-- C8: the amount half of the claim holds — construction raises
`ValueError` exactly on a negative amount, and a constructed record stores
the given non-negative amount — but `isEligible` never returns the claimed
boolean: it calls the `lru_cache`-decorated `displayGPA`, which raises
`TypeError` on the unhashable instance, so every call raises instead of
returning. The comparison its body is written to perform — on the string the
GPA body computes — is true exactly when the parsed GPA exceeds 7/2 = 3.5,
which is the intent the claim describes (the repo's own demo prints
`isEligible()`'s result, so the code, not the claim, is the slip). -/
theorem scholarship_amount_and_eligibility (n : String) (i : IdVal) (a : ℚ)
    (s : ScholarshipStudent) :
    (a < 0 → mkScholarshipStudent n i a = .error .valueError)
    ∧ (∀ st, mkScholarshipStudent n i a = .ok st →
        0 ≤ st.scholarship_amount ∧ st.scholarship_amount = a)
    ∧ isEligibleA s = .error .typeError
    ∧ (Rat.divInt 7 2 : ℚ) = 7 / 2
    ∧ (isEligibleBody s = true ↔
        Rat.divInt 7 2 < parseDecimal (lastToken (displayGPAValue s.toStudentA))) := by
  refine ⟨fun h => ?_, fun st h => ?_, rfl, ?_, ?_⟩
  · rw [mkScholarshipStudent, if_pos h]
  · rw [mkScholarshipStudent] at h
    split at h
    · cases h
    · cases h
      exact ⟨le_of_not_lt (by assumption), rfl⟩
  · rw [Rat.divInt_eq_div]
    norm_num
  · rw [isEligibleBody]
    exact decide_eq_true_iff

/-- Witness for C8: amount -5 is rejected with ValueError, amount 5000 is
stored as given, the eligibility call on Jess raises TypeError, and the
body's comparison on her GPA string "3.75" comes out true. -/
theorem scholarship_amount_and_eligibility_witness :
    ((-5 : ℚ) < 0)
    ∧ mkScholarshipStudent "Jo" (.str "9") (-5) = .error .valueError
    ∧ (0 ≤ (⟨mkStudentA "Jess" (.str "123456"), 5000⟩ : ScholarshipStudent).scholarship_amount
        ∧ (⟨mkStudentA "Jess" (.str "123456"), 5000⟩ : ScholarshipStudent).scholarship_amount = 5000)
    ∧ isEligibleA ⟨⟨"Jess", "123456", [("ipc144", 4), ("cpp244", Rat.divInt 7 2)], none⟩, 5000⟩ =
        .error .typeError
    ∧ isEligibleBody ⟨⟨"Jess", "123456", [("ipc144", 4), ("cpp244", Rat.divInt 7 2)], none⟩, 5000⟩ =
        true :=
  ⟨by norm_num,
   (scholarship_amount_and_eligibility "Jo" (.str "9") (-5)
      ⟨mkStudentA "Jess" (.str "123456"), 5000⟩).1 (by norm_num),
   (scholarship_amount_and_eligibility "Jess" (.str "123456") 5000
      ⟨mkStudentA "Jess" (.str "123456"), 5000⟩).2.1 _
     (by rw [mkScholarshipStudent, if_neg (by norm_num : ¬(5000 : ℚ) < 0)]
         rfl),
   (scholarship_amount_and_eligibility "Jess" (.str "123456") 5000
      ⟨⟨"Jess", "123456", [("ipc144", 4), ("cpp244", Rat.divInt 7 2)], none⟩, 5000⟩).2.2.1,
   (scholarship_amount_and_eligibility "Jess" (.str "123456") 5000
      ⟨⟨"Jess", "123456", [("ipc144", 4), ("cpp244", Rat.divInt 7 2)], none⟩, 5000⟩).2.2.2.2.mpr
     (by decide)⟩

/-- C9: the advanced membership test holds exactly for the keys of the
mapping — i.e. the courses previously added (insertion puts exactly the new
key into the key set) — regardless of grade; in particular a course stored
with grade 0.0 is reported present even though `displayCourses` omits it. -/
theorem containsCourse_iff_added (t : StudentA) (c : String) (cs : Courses)
    (k d : String) (g : Grade) :
    (containsCourse t c = true ↔ c ∈ keys t.courses)
    ∧ (d ∈ keys (odInsert cs k g) ↔ d = k ∨ d ∈ keys cs)
    ∧ ((keys t.courses).Nodup → lookupCourse t.courses c = some 0 →
        containsCourse t c = true ∧ c ∉ displayCoursesA t) := by
  refine ⟨?_, mem_keys_odInsert cs k d g, fun hnd h0 => ⟨?_, fun hmem => ?_⟩⟩
  · rw [containsCourse]
    exact lookupCourse_isSome_iff t.courses c
  · rw [containsCourse, h0]
    rfl
  · exact not_mem_passedCourses_of_zero t.courses c hnd h0
      (List.mem_mergeSort.mp hmem)

/-- Witness for C9: cpp344, stored with grade 0.0, is reported present by
the membership test yet omitted from the sorted listing. -/
theorem containsCourse_iff_added_witness :
    (keys [("cpp344", (0 : ℚ)), ("ipc144", 4)]).Nodup
    ∧ lookupCourse [("cpp344", (0 : ℚ)), ("ipc144", 4)] "cpp344" = some 0
    ∧ (containsCourse ⟨"Jess", "123456", [("cpp344", 0), ("ipc144", 4)], none⟩ "cpp344" = true
        ∧ "cpp344" ∉ displayCoursesA ⟨"Jess", "123456", [("cpp344", 0), ("ipc144", 4)], none⟩) :=
  ⟨by decide, by decide,
   (containsCourse_iff_added
      ⟨"Jess", "123456", [("cpp344", 0), ("ipc144", 4)], none⟩ "cpp344"
      [] "x" "y" 0).2.2 (by decide) (by decide)⟩

/-- C10: the advanced `addGrade` also rejects ill-typed arguments — a
non-string course fails with the invalid-course error, and (once the course
is an acceptable string) a non-numeric grade fails with the invalid-grade
error — in both cases returning the record, courses mapping included,
exactly as it was. -/
theorem addGradeA_rejects_bad_types (s : StudentA) (course grade : PyVal)
    (c : String) :
    (isStr course = false → addGradeA s course grade = (.error .invalidCourse, s))
    ∧ (3 ≤ c.length → isNum grade = false →
        addGradeA s (.str c) grade = (.error .invalidGrade, s)) := by
  constructor
  · intro h
    rw [addGradeA, if_pos (Or.inl h)]
  · intro hlen hnum
    rw [addGradeA,
      if_neg (by simp [isStr, pyLen, Nat.not_lt.mpr hlen]),
      if_pos (Or.inl hnum)]

/-- Witness for C10: the integer 42 as course is rejected as invalid
course, and the string "oops" as grade is rejected as invalid grade. -/
theorem addGradeA_rejects_bad_types_witness :
    (isStr (PyVal.int 42) = false)
    ∧ addGradeA (mkStudentA "John" (.str "1")) (.int 42) (.float 2) =
        (.error .invalidCourse, mkStudentA "John" (.str "1"))
    ∧ addGradeA (mkStudentA "John" (.str "1")) (.str "abc") (.str "oops") =
        (.error .invalidGrade, mkStudentA "John" (.str "1")) :=
  ⟨by decide,
   (addGradeA_rejects_bad_types (mkStudentA "John" (.str "1")) (.int 42)
      (.float 2) "abc").1 (by decide),
   (addGradeA_rejects_bad_types (mkStudentA "John" (.str "1")) (.str "abc")
      (.str "oops") "abc").2 (by decide) (by decide)⟩

end Lab6
